import Mathlib

/-!
Verification development for the astro-link-validator link-checking engine.

The definitions below are a shallow embedding of the TypeScript sources
`src/link-checker.ts` and `src/redirects.ts`:

* pure string manipulation (trimming, splitting, `parseInt`, the restricted
  regular expressions built by `matchesPattern`/`applyRedirectRule`) is
  translated into executable Lean functions over `String`/`List Char`;
* filesystem access (`existsSync`, `fs.stat`), the parsed HTML document,
  and the `fetch` network probe are abstracted into explicit parameters
  (`FSModel`, `List Element`, `FetchOutcome`), so each stateful function
  becomes a pure function of its inputs plus such a model;
* the recursive redirect following of `checkInternalLink` is embedded with
  an explicit fuel parameter; a result of `none` means the recursion did not
  finish within the given fuel (for any fuel: it diverges).

Machine integers do not occur: the only numbers are list lengths and HTTP
status codes (`Nat`) and the parsed redirect status, which is modelled as a
JavaScript number that may be NaN (`JSNum`).
-/

/-- `type` of a discovered link (`src/types.ts`). -/
inductive LinkType where
  | internal
  | external
  | asset
  | anchor
deriving DecidableEq, Repr

/-- `reason` of a broken link (`src/types.ts`). -/
inductive Reason where
  | notFound
  | networkError
  | timeout
  | invalid
deriving DecidableEq, Repr

/-- One discovered reference (`Link` in `src/types.ts`). -/
structure Link where
  href : String
  text : String
  sourceFile : String
  type : LinkType
deriving DecidableEq, Repr

/-- A link plus failure detail (`BrokenLink` in `src/types.ts`). -/
structure BrokenLink extends Link where
  error : String
  reason : Reason
deriving DecidableEq, Repr

/-- A JavaScript number as produced by `parseInt`: an integer or NaN. -/
inductive JSNum where
  | int (n : Int)
  | nan
deriving DecidableEq, Repr

/-- A redirect rule (`RedirectRule` in `src/redirects.ts`); `from` is a Lean
keyword and `to` is a reserved token, so the fields are named `fromPat` and `toDest`. -/
structure RedirectRule where
  fromPat : String
  toDest : String
  status : JSNum
deriving DecidableEq, Repr

/-- Aggregate result (`LinkCheckResult` in `src/types.ts`). -/
structure LinkCheckResult where
  totalLinks : Nat
  brokenLinks : List BrokenLink
  checkedFiles : List String
  skippedFiles : List String
deriving DecidableEq, Repr

/-! ## Kernel-computable string scanning

The string-scanning functions of the Lean core library are implemented on
byte positions and do not reduce inside the kernel, so the embedding uses
the following `List Char` based equivalents (same semantics, applied to the
character data of the string). -/

/-- Whether `pat` is a prefix of `s` (plain character comparison). -/
def startsWithChars : List Char → List Char → Bool
  | _, [] => true
  | [], _ :: _ => false
  | c :: cs, p :: ps => c = p && startsWithChars cs ps

/-- `s.startsWith(pre)`. -/
def strStartsWith (s pre : String) : Bool :=
  startsWithChars s.toList pre.toList

/-- `s.endsWith(suf)`. -/
def strEndsWith (s suf : String) : Bool :=
  startsWithChars s.toList.reverse suf.toList.reverse

/-- Split a character list at every separator character (separators are
dropped; empty pieces are kept, as in `String.split` and JavaScript
`split` with a single-character separator). -/
def splitChars (p : Char → Bool) : List Char → List (List Char)
  | [] => [[]]
  | c :: cs =>
    let r := splitChars p cs
    if p c then [] :: r
    else
      match r with
      | [] => [[c]]
      | h :: t => (c :: h) :: t

/-- `String.split` on a character predicate. -/
def strSplit (s : String) (p : Char → Bool) : List String :=
  (splitChars p s.toList).map List.asString

/-- `s.takeWhile p` on the characters of `s`. -/
def strTakeWhile (s : String) (p : Char → Bool) : String :=
  (s.toList.takeWhile p).asString

/-- `s.trim()`: whitespace stripped from both ends. -/
def strTrim (s : String) : String :=
  ((s.toList.dropWhile Char.isWhitespace).reverse.dropWhile Char.isWhitespace).reverse.asString

/-- `s.toLowerCase()` (character-wise). -/
def strToLower (s : String) : String :=
  (s.toList.map Char.toLower).asString

/-- `s.includes(c)` for a single character. -/
def strContainsChar (s : String) (c : Char) : Bool :=
  s.toList.contains c

/-- `s.substring(n)`: drop the first `n` characters. -/
def strDrop (s : String) (n : Nat) : String :=
  (s.toList.drop n).asString

/-- Concatenate with a separator between the pieces. -/
def strIntercalate (sep : String) : List String → String
  | [] => ""
  | h :: t => t.foldl (fun acc x => acc ++ sep ++ x) h

/-! ## JavaScript string primitives -/

/-- JavaScript `a || b` on strings: the empty string is falsy.  An absent
attribute (`undefined`) is modelled as `""` by the callers, which is sound
because `undefined` and `""` are both falsy and a chain `x || y || ""` never
returns `undefined` as its final value. -/
def jsOrS (a b : String) : String :=
  if a = "" then b else a

/-- `s.split(/\s+/)` on an already trimmed string: runs of whitespace
separate the tokens, and no empty tokens are produced. -/
def jsSplitWs (s : String) : List String :=
  (strSplit s Char.isWhitespace).filter (· ≠ "")

/-- `s.split(c)[0]`: the prefix of `s` before the first occurrence of the
character `c` (the whole string when `c` does not occur). -/
def jsSplitFirst (s : String) (c : Char) : String :=
  strTakeWhile s (· ≠ c)

/-- Numeric value of a list of decimal digits. -/
def digitsToNat (ds : List Char) : Nat :=
  ds.foldl (fun a c => a * 10 + (c.toNat - '0'.toNat)) 0

/-- JavaScript `parseInt(s, 10)`: skip leading whitespace, read an optional
sign and then a maximal run of decimal digits; NaN when no digit follows. -/
def jsParseInt (s : String) : JSNum :=
  let cs := s.toList.dropWhile Char.isWhitespace
  let signAndRest : Int × List Char :=
    match cs with
    | '-' :: r => (-1, r)
    | '+' :: r => (1, r)
    | r => (1, r)
  let ds := signAndRest.2.takeWhile Char.isDigit
  if ds = [] then JSNum.nan
  else JSNum.int (signAndRest.1 * (digitsToNat ds : Int))

/-! ## The restricted regular expressions of `src/redirects.ts`

`matchesPattern` and `applyRedirectRule` both compile a redirect pattern by
escaping every regex metacharacter, replacing each `:[\w]+` with `([^/]+)`
and each `*` with `(.*)`, and anchoring the result.  The compiled expression
therefore consists only of literal characters, `([^/]+)` groups and `(.*)`
groups, which is embedded here as a token list together with a backtracking
matcher that mirrors the greedy, leftmost search of the JavaScript engine. -/

/-- JavaScript `\w`: ASCII letters, digits and underscore. -/
def isWordChar (c : Char) : Bool :=
  c.isAlpha || c.isDigit || c = '_'

/-- A maximal-munch token of a pattern or destination template: a plain
character, a maximal run of word characters, a `:name` parameter (the stored
run is the name), or a `*` wildcard. -/
inductive DTok where
  | lit (c : Char)
  | word (run : List Char)
  | param (name : List Char)
  | star
deriving DecidableEq, Repr

/-- Tokenize a pattern/template exactly as the regex passes of
`src/redirects.ts` read it: each `:[\w]+` (leftmost, maximal) is a parameter,
each `*` a wildcard, everything else literal text. -/
def scanToks : List Char → List DTok
  | [] => []
  | c :: cs =>
    let ts := scanToks cs
    if c = '*' then DTok.star :: ts
    else if c = ':' then
      match ts with
      | DTok.word w :: rest => DTok.param w :: rest
      | _ => DTok.lit ':' :: ts
    else if isWordChar c then
      match ts with
      | DTok.word w :: rest => DTok.word (c :: w) :: rest
      | _ => DTok.word [c] :: ts
    else DTok.lit c :: ts

/-- A token of the compiled regular expression: a literal character, a
`([^/]+)` group or a `(.*)` group. -/
inductive MTok where
  | lit (c : Char)
  | param
  | star
deriving DecidableEq, Repr

/-- Compile a pattern to its regex token list (the `^...$`-anchored regex of
`matchesPattern`): parameters become `([^/]+)`, wildcards `(.*)`, and all
remaining characters match literally (the escaping pass of the source only
makes metacharacters literal, which the token form expresses directly). -/
def parsePatternToks (pattern : String) : List MTok :=
  (scanToks pattern.toList).flatMap fun t =>
    match t with
    | DTok.lit c => [MTok.lit c]
    | DTok.word w => w.map MTok.lit
    | DTok.param _ => [MTok.param]
    | DTok.star => [MTok.star]

/-- JavaScript `.` (no `s` flag) does not match line terminators. -/
def isLineTerminator (c : Char) : Bool :=
  c = '\n' || c = '\r' || c = Char.ofNat 0x2028 || c = Char.ofNat 0x2029

/-- Backtracking matcher for the anchored compiled regex: returns the list
of captured groups (in group order) of the match found by the JavaScript
engine, greedy quantifiers trying longer captures first.  The fuel is
decremented once per token; every call consumes a token, so
`toks.length + 1` fuel always suffices. -/
def matchToksF : Nat → List MTok → List Char → Option (List (List Char))
  | 0, _, _ => none
  | _ + 1, [], s => if s = [] then some [] else none
  | n + 1, MTok.lit c :: ts, s =>
    match s with
    | [] => none
    | x :: xs => if x = c then matchToksF n ts xs else none
  | n + 1, MTok.star :: ts, s =>
    (List.range (s.length + 1)).findSome? fun i =>
      let k := s.length - i
      if (s.take k).all (fun c => ¬ isLineTerminator c) then
        (matchToksF n ts (s.drop k)).map (fun caps => s.take k :: caps)
      else none
  | n + 1, MTok.param :: ts, s =>
    (List.range s.length).findSome? fun i =>
      let k := s.length - i
      if (s.take k).all (· ≠ '/') then
        (matchToksF n ts (s.drop k)).map (fun caps => s.take k :: caps)
      else none

/-- `path.match(regex)` for the compiled pattern: the captured groups as
strings, or `none` when the regex does not match. -/
def jsMatch (pattern : String) (path : String) : Option (List String) :=
  let toks := parsePatternToks pattern
  (matchToksF (toks.length + 1) toks path.toList).map (·.map List.asString)

/-- `matchesPattern` of `src/redirects.ts`: direct string equality first,
otherwise the compiled anchored regex must match. -/
def matchesPattern (path : String) (pattern : String) : Bool :=
  path = pattern || (jsMatch pattern path).isSome

/-- `findRedirectRule` of `src/redirects.ts`: first rule in list order whose
pattern matches. -/
def findRedirectRule (path : String) (rules : List RedirectRule) : Option RedirectRule :=
  match rules with
  | [] => none
  | r :: rest => if matchesPattern path r.fromPat then some r else findRedirectRule path rest

/-! ## Destination substitution (`applyRedirectRule`) -/

/-- The first substitution pass of `applyRedirectRule`:
`destination.replace(/:[\w]+/g, () => captures[paramIndex++] || '')`.
Parameter tokens (leftmost first) consume the capture queue; an exhausted
queue substitutes the empty string.  Returns the substituted text and the
remaining queue, because the wildcard pass continues with the same index. -/
def renderParams : List DTok → List String → List Char × List String
  | [], caps => ([], caps)
  | DTok.lit c :: ts, caps =>
    let r := renderParams ts caps
    (c :: r.1, r.2)
  | DTok.word w :: ts, caps =>
    let r := renderParams ts caps
    (w ++ r.1, r.2)
  | DTok.star :: ts, caps =>
    let r := renderParams ts caps
    ('*' :: r.1, r.2)
  | DTok.param _ :: ts, caps =>
    let r := renderParams ts (caps.drop 1)
    ((caps.headD "").toList ++ r.1, r.2)

/-- The second substitution pass:
`destination.replace(/\*/g, () => captures[paramIndex++] || '')`, run on the
text produced by the first pass (so `*` characters substituted in by a
capture are replaced as well). -/
def substStars : List Char → List String → List Char
  | [], _ => []
  | c :: cs, caps =>
    if c = '*' then (caps.headD "").toList ++ substStars cs (caps.drop 1)
    else c :: substStars cs caps

/-- The characters of the literal `:splat`. -/
def splatChars : List Char := [':', 's', 'p', 'l', 'a', 't']

/-- `destination.includes(':splat')`. -/
def containsSplat : List Char → Bool
  | [] => false
  | c :: cs => startsWithChars (c :: cs) splatChars || containsSplat cs

/-- `destination.replace(':splat', repl)`: replace the first occurrence of
the literal `:splat`.  (The `$`-escape handling JavaScript applies to string
replacements is not modelled; no statement below substitutes a capture
containing a dollar sign here.) -/
def replaceSplat : List Char → List Char → List Char
  | [], _ => []
  | c :: cs, repl =>
    if startsWithChars (c :: cs) splatChars then repl ++ (c :: cs).drop splatChars.length
    else c :: replaceSplat cs repl

/-- `applyRedirectRule` of `src/redirects.ts`: literal destination when the
pattern has neither `*` nor `:`; otherwise rematch to obtain the captures,
substitute `:[\w]+` placeholders then `*` placeholders in order from the
shared capture queue, and finally replace a remaining literal `:splat` with
the last capture. -/
def applyRedirectRule (path : String) (rule : RedirectRule) : String :=
  if ¬ strContainsChar rule.fromPat '*' ∧ ¬ strContainsChar rule.fromPat ':' then rule.toDest
  else
    match jsMatch rule.fromPat path with
    | none => rule.toDest
    | some captures =>
      let d1 := renderParams (scanToks rule.toDest.toList) captures
      let d2 := substStars d1.1 d1.2
      let d3 := if containsSplat d2 then replaceSplat d2 (captures.getLastD "").toList else d2
      d3.asString

/-! ## Parsing the `_redirects` file -/

/-- `parseRedirects` of `src/redirects.ts`: split on newlines; skip blank
lines and `#` comments; whitespace-split the rest; lines with at least two
tokens produce a rule whose status is `parseInt` of the third token when
present, `301` otherwise. -/
def parseRedirects (content : String) : List RedirectRule :=
  (strSplit content (· = '\n')).foldl
    (fun rules line =>
      let trimmed := strTrim line
      if trimmed = "" ∨ strStartsWith trimmed "#" then rules
      else
        let parts := jsSplitWs trimmed
        if parts.length ≥ 2 then
          rules ++ [{ fromPat := parts.getD 0 "", toDest := parts.getD 1 "",
                      status := if parts.length > 2 then jsParseInt (parts.getD 2 "")
                                else JSNum.int 301 }]
        else rules)
    []

/-! ## `node:path` (posix) -/

/-- The posix path separator (`sep` of `node:path`). -/
def pathSep : Char := '/'

/-- The segment-stack step of node's `normalizeString`: `.` is dropped,
`..` pops a non-`..` segment, or is kept only when ascending above the
start is allowed (relative paths). -/
def normSegStep (allowAboveRoot : Bool) (st : List String) (seg : String) : List String :=
  if seg = "." then st
  else if seg = ".." then
    if st ≠ [] ∧ st.getLast? ≠ some ".." then st.dropLast
    else if allowAboveRoot then st ++ [".."] else st
  else st ++ [seg]

/-- node's `normalizeString(p, allowAboveRoot)`: resolve `.`/`..` over the
non-empty segments. -/
def normalizeSegs (allowAboveRoot : Bool) (p : String) : List String :=
  (((strSplit p (· = '/')).filter (· ≠ "")).foldl (normSegStep allowAboveRoot) [])

/-- node's `path.posix.normalize`: empty becomes `.`, absolute paths keep
the leading `/` and never ascend above the root, a trailing separator is
preserved. -/
def normalizePosix (p : String) : String :=
  if p = "" then "." else
  let abs := strStartsWith p "/"
  let trailing := strEndsWith p "/"
  let body := strIntercalate "/" (normalizeSegs (¬ abs) p)
  if abs then
    if body = "" then "/" else "/" ++ body ++ (if trailing then "/" else "")
  else
    if body = "" then (if trailing then "./" else ".")
    else body ++ (if trailing then "/" else "")

/-- node's `path.posix.join` for two arguments: concatenate the non-empty
arguments with `/` and normalize (`.` when both are empty). -/
def joinPath (a b : String) : String :=
  if a = "" ∧ b = "" then "."
  else if a = "" then normalizePosix b
  else if b = "" then normalizePosix a
  else normalizePosix (a ++ "/" ++ b)

/-- node's `path.posix.resolve` applied to one absolute path: normalize
without ascending above the root and without a trailing separator. -/
def resolveAbs (p : String) : String :=
  let body := strIntercalate "/" (normalizeSegs false p)
  if body = "" then "/" else "/" ++ body

/-- node's `path.posix.resolve(base, p)`.  When neither argument is
absolute the real function resolves against the process working directory;
that case is modelled as plain normalization (every caller in this
development passes an absolute base). -/
def resolvePath (base p : String) : String :=
  if strStartsWith p "/" then resolveAbs p
  else if strStartsWith base "/" then resolveAbs (base ++ "/" ++ p)
  else strIntercalate "/" (normalizeSegs true (base ++ "/" ++ p))

/-- node's `path.posix.dirname`: scanning from the end over indices ≥ 1,
skip trailing separators, then cut just before the next separator. -/
def dirnamePath (p : String) : String :=
  if p = "" then "." else
  let cs := p.toList
  let hasRoot := cs.headD ' ' = '/'
  let rev := (cs.drop 1).reverse
  let afterTrail := rev.dropWhile (· = '/')
  let rest := afterTrail.dropWhile (· ≠ '/')
  match rest with
  | [] => if hasRoot then "/" else "."
  | _ :: before =>
    if before = [] ∧ hasRoot then "//"
    else ((cs.take 1) ++ before.reverse).asString

/-- Length of the common segment-list prefix of two paths. -/
def commonSegs : List String → List String → Nat
  | a :: as2, b :: bs => if a = b then commonSegs as2 bs + 1 else 0
  | _, _ => 0

/-- node's `path.posix.relative(f, t)` for absolute arguments: resolve
both, drop the common segment run, ascend with `..` for what remains of
`f` and descend into what remains of `t`. -/
def relativePath (f t : String) : String :=
  let rf := resolveAbs f
  let rt := resolveAbs t
  if rf = rt then "" else
  let fs := (strSplit rf (· = '/')).filter (· ≠ "")
  let ts := (strSplit rt (· = '/')).filter (· ≠ "")
  let c := commonSegs fs ts
  strIntercalate "/" (List.replicate (fs.length - c) ".." ++ ts.drop c)

/-- node's `path.posix.extname`: the suffix of the basename from its last
`.`, empty when there is no dot, the dot is the basename's first character,
or the basename consists only of dots. -/
def extnamePath (p : String) : String :=
  let b := (p.toList.reverse.takeWhile (· ≠ '/')).reverse
  if b = [] ∨ b.all (· = '.') then ""
  else
    let afterDot := b.reverse.takeWhile (· ≠ '.')
    if afterDot.length = b.length then ""
    else if afterDot.length + 1 = b.length then ""
    else ('.' :: afterDot.reverse).asString

/-! ## Link extraction (`extractLinksFromHtml`, `categorizeLink`)

The Cheerio parse is the embedding boundary: a document is modelled as its
element list in document order, each element carrying its tag, attribute
list and text content.  The three `.each` passes of the source translate to
three list traversals whose results are concatenated in pass order. -/

/-- One parsed HTML element: tag name, attributes, and the `.text()` of the
element. -/
structure Element where
  tag : String
  attrs : List (String × String)
  innerText : String
deriving DecidableEq, Repr

/-- `$(element).attr(name)`: the attribute's value, or `none` when absent. -/
def getAttr (e : Element) (name : String) : Option String :=
  (e.attrs.find? (·.1 = name)).map (·.2)

/-- The fixed asset-extension set of `categorizeLink`. -/
def assetExtensions : List String :=
  [".jpg", ".jpeg", ".png", ".gif", ".svg", ".webp", ".avif",
   ".css", ".js", ".json", ".pdf", ".zip", ".mp4", ".webm",
   ".mp3", ".wav", ".woff", ".woff2", ".ttf", ".eot", ".ico"]

/-- `categorizeLink` of `src/link-checker.ts`: `#...` is an anchor;
`http://`, `https://` and `//` are external; a known asset extension (after
stripping query and fragment, lowercased) is an asset; everything else is
internal. -/
def categorizeLink (href : String) : LinkType :=
  if strStartsWith href "#" then LinkType.anchor
  else if strStartsWith href "http://" ∨ strStartsWith href "https://" ∨ strStartsWith href "//" then
    LinkType.external
  else
    let ext := strToLower (extnamePath (jsSplitFirst (jsSplitFirst href '?') '#'))
    if assetExtensions.contains ext then LinkType.asset else LinkType.internal

/-- `parseSrcset`: split on commas, trim each candidate, keep its first
whitespace-delimited token (the URL), drop empties. -/
def parseSrcset (srcset : String) : List String :=
  (((strSplit srcset (· = ',')).map fun s => strTakeWhile (strTrim s) (fun c => ¬ c.isWhitespace))).filter
    (· ≠ "")

/-- First extraction pass, `$('a[href], link[href]')`: elements with an
`href` attribute; empty, `javascript:`, `mailto:` and `tel:` values are
skipped; the type is `categorizeLink href`. -/
def hrefPassLinks (doc : List Element) (sourceFile : String) : List Link :=
  doc.filterMap fun e =>
    if e.tag = "a" ∨ e.tag = "link" then
      match getAttr e "href" with
      | some href =>
        let text := jsOrS (strTrim e.innerText)
          (jsOrS ((getAttr e "title").getD "") (jsOrS href ""))
        if href ≠ "" ∧ ¬ strStartsWith href "javascript:" ∧ ¬ strStartsWith href "mailto:"
            ∧ ¬ strStartsWith href "tel:" then
          some { href := href, text := text, sourceFile := sourceFile,
                 type := categorizeLink href }
        else none
      | none => none
    else none

/-- Second extraction pass,
`$('img[src], script[src], iframe[src], source[src], video[src], audio[src]')`:
elements with a `src` attribute; empty, `data:` and `blob:` values are
skipped; the type is always `asset`. -/
def srcPassLinks (doc : List Element) (sourceFile : String) : List Link :=
  doc.filterMap fun e =>
    if e.tag = "img" ∨ e.tag = "script" ∨ e.tag = "iframe" ∨ e.tag = "source"
        ∨ e.tag = "video" ∨ e.tag = "audio" then
      match getAttr e "src" with
      | some src =>
        let alt := jsOrS ((getAttr e "alt").getD "")
          (jsOrS ((getAttr e "title").getD "") (jsOrS src ""))
        if src ≠ "" ∧ ¬ strStartsWith src "data:" ∧ ¬ strStartsWith src "blob:" then
          some { href := src, text := alt, sourceFile := sourceFile,
                 type := LinkType.asset }
        else none
      | none => none
    else none

/-- Third extraction pass, `$('img[srcset], source[srcset]')`: each URL of
the parsed `srcset`, skipping `data:` and `blob:`; the type is always
`asset`. -/
def srcsetPassLinks (doc : List Element) (sourceFile : String) : List Link :=
  doc.flatMap fun e =>
    if e.tag = "img" ∨ e.tag = "source" then
      match getAttr e "srcset" with
      | some srcset =>
        (parseSrcset srcset).filterMap fun src =>
          if ¬ strStartsWith src "data:" ∧ ¬ strStartsWith src "blob:" then
            some { href := src, text := jsOrS ((getAttr e "alt").getD "") src,
                   sourceFile := sourceFile, type := LinkType.asset }
          else none
      | none => []
    else []

/-- `extractLinksFromHtml`: the three passes in source order. -/
def extractLinksFromHtml (doc : List Element) (sourceFile : String) : List Link :=
  hrefPassLinks doc sourceFile ++ srcPassLinks doc sourceFile ++ srcsetPassLinks doc sourceFile

/-! ## Internal link checking (`checkInternalLink`) -/

/-- The filesystem as seen by `checkInternalLink`: `existsSync` and whether
`fs.stat` reports a directory (`false` also covers a throwing `stat`). -/
structure FSModel where
  pathExists : String → Bool
  statIsDir : String → Bool

/-- `filePath.replace(/[/\\\\]/g, sep)`: both separators normalized to the
platform separator (posix: `/`). -/
def sepNormalize (p : String) : String :=
  (p.toList.map fun c => if c = '/' ∨ c = '\\' then pathSep else c).asString

/-- The filesystem part of `checkInternalLink` (lines 177-224 of
`src/link-checker.ts`): map the clean href to a candidate path (root-relative
under the build dir, otherwise resolved against the source document's
directory), then accept in order: the exact path; for extensionless
candidates the path with `.html` appended or an `index.html` inside it; an
existing directory containing `index.html`.  Otherwise report `not-found`. -/
def fileCheckPart (fs : FSModel) (buildDir : String) (link : Link) (cleanHref : String) :
    Option BrokenLink :=
  let fp0 :=
    if strStartsWith cleanHref "/" then joinPath buildDir (strDrop cleanHref 1)
    else resolvePath (dirnamePath (joinPath buildDir (relativePath buildDir link.sourceFile)))
      cleanHref
  let filePath := sepNormalize fp0
  if fs.pathExists filePath then none
  else if extnamePath filePath = "" ∧ fs.pathExists (filePath ++ ".html") then none
  else if extnamePath filePath = "" ∧ fs.pathExists (joinPath filePath "index.html") then none
  else if fs.statIsDir filePath ∧ fs.pathExists (joinPath filePath "index.html") then none
  else some { toLink := link,
              error := "File not found: " ++ relativePath buildDir filePath,
              reason := Reason.notFound }

/-- `checkInternalLink` of `src/link-checker.ts`.  `some none` is a valid
link, `some (some b)` a broken one; `none` means the recursion through
redirect rules did not complete within `fuel` steps.  The unused `baseUrl`
parameter of the source is omitted (it is only threaded through the
recursion). -/
def checkInternalLink (fs : FSModel) (buildDir : String) (redirects : List RedirectRule) :
    Nat → Link → Option (Option BrokenLink)
  | 0, _ => none
  | fuel + 1, link =>
    if strStartsWith link.href "http://" ∨ strStartsWith link.href "https://"
        ∨ strStartsWith link.href "//" then some none
    else
      let cleanHref := jsSplitFirst (jsSplitFirst link.href '#') '?'
      if strStartsWith link.href "#" then some none
      else if strStartsWith cleanHref "/" ∧ redirects.length > 0 then
        match findRedirectRule cleanHref redirects with
        | some rule =>
          let redirectTarget := applyRedirectRule cleanHref rule
          if strStartsWith redirectTarget "/" then
            checkInternalLink fs buildDir redirects fuel { link with href := redirectTarget }
          else some none
        | none => some (fileCheckPart fs buildDir link cleanHref)
      else some (fileCheckPart fs buildDir link cleanHref)

/-! ## External link checking (`checkExternalLink`) -/

/-- Outcome of the `fetch` HEAD probe: a completed response (status and
status text), an abort raised by the timeout timer, another `Error`, or a
thrown non-`Error` value. -/
inductive FetchOutcome where
  | response (status : Nat) (statusText : String)
  | abortError
  | errorWithMessage (message : String)
  | unknownThrown
deriving DecidableEq, Repr

/-- `response.ok` of the Fetch standard: status in the range 200-299. -/
def responseOk (status : Nat) : Bool :=
  200 ≤ status && status ≤ 299

/-- `checkExternalLink` of `src/link-checker.ts`, as a function of the probe
outcome: `ok` responses are valid; any other response is a `network-error`
carrying `HTTP <status>: <statusText>`; an abort (the timeout firing) is a
`timeout`; other errors are `network-error`s. -/
def checkExternalLink (link : Link) (timeout : Nat) (outcome : FetchOutcome) :
    Option BrokenLink :=
  match outcome with
  | FetchOutcome.response status statusText =>
    if responseOk status then none
    else some { toLink := link,
                error := "HTTP " ++ toString status ++ ": " ++ statusText,
                reason := Reason.networkError }
  | FetchOutcome.abortError =>
    some { toLink := link,
           error := "Request timeout after " ++ toString timeout ++ "ms",
           reason := Reason.timeout }
  | FetchOutcome.errorWithMessage m =>
    some { toLink := link, error := m, reason := Reason.networkError }
  | FetchOutcome.unknownThrown =>
    some { toLink := link, error := "Unknown error", reason := Reason.networkError }

/-! ## Directory walking (`getHtmlFiles`) and orchestration (`checkLinks`) -/

/-- A directory entry of the build tree: a plain file or a subdirectory. -/
inductive FSEntry where
  | file (name : String)
  | dir (name : String) (entries : List FSEntry)

/-- The recursive `walk` of `getHtmlFiles`: directories are descended into
at their position, and a file is collected when its name ends in `.html`. -/
def walkEntries (cur : String) : List FSEntry → List String
  | [] => []
  | FSEntry.dir name sub :: rest =>
    walkEntries (joinPath cur name) sub ++ walkEntries cur rest
  | FSEntry.file name :: rest =>
    (if strEndsWith name ".html" then [joinPath cur name] else []) ++ walkEntries cur rest

/-- `getHtmlFiles` of `src/link-checker.ts`: the source accepts an `include`
pattern list (defaulted to `**/*.html`) but its `walk` never consults it,
exactly as the unused include parameter here. -/
def getHtmlFiles (dir : String) (tree : List FSEntry) (_includePats : List String) :
    List String :=
  walkEntries dir tree

/-- The per-file loop of `checkLinks` (lines 384-401 of
`src/link-checker.ts`).  The outcome of `checkLinksInFile` for each
discovered file is the embedding boundary: `Except.ok` carries the extracted
links and broken links, `Except.error` a thrown read/parse failure.  A
successful file adds its link count, broken links and relative path to the
aggregate; a failing file only records its relative path as skipped. -/
def checkLinks (buildDir : String)
    (fileResults : List (String × Except String (List Link × List BrokenLink))) :
    LinkCheckResult :=
  fileResults.foldl
    (fun result fr =>
      match fr.2 with
      | Except.ok lb =>
        { result with
          totalLinks := result.totalLinks + lb.1.length,
          brokenLinks := result.brokenLinks ++ lb.2,
          checkedFiles := result.checkedFiles ++ [relativePath buildDir fr.1] }
      | Except.error _ =>
        { result with
          skippedFiles := result.skippedFiles ++ [relativePath buildDir fr.1] })
    { totalLinks := 0, brokenLinks := [], checkedFiles := [], skippedFiles := [] }

/-! ## Specification-side definitions

The following definitions follow the wording of the specification (or of an
amended claim) rather than the source, and are compared with the source
embedding by the theorems below. -/

/-- Number of `:name` placeholders of a tokenized destination. -/
def countParams : List DTok → Nat
  | [] => 0
  | DTok.param _ :: ts => countParams ts + 1
  | _ :: ts => countParams ts

/-- Ordered substitution stated by index: the `i`-th `:name` placeholder of
the destination (in textual order, `:splat` included) receives capture
number `i`; missing captures substitute the empty string; `*` characters
are left in place for the wildcard pass. -/
def renderParamsIdx : List DTok → List String → Nat → List Char
  | [], _, _ => []
  | DTok.lit c :: ts, caps, i => c :: renderParamsIdx ts caps i
  | DTok.word w :: ts, caps, i => w ++ renderParamsIdx ts caps i
  | DTok.star :: ts, caps, i => '*' :: renderParamsIdx ts caps i
  | DTok.param _ :: ts, caps, i => (caps.getD i "").toList ++ renderParamsIdx ts caps (i + 1)

/-- Wildcard substitution stated by index: the `j`-th `*` of the text
receives capture number `start + j`. -/
def substStarsIdx : List Char → List String → Nat → List Char
  | [], _, _ => []
  | c :: cs, caps, j =>
    if c = '*' then (caps.getD j "").toList ++ substStarsIdx cs caps (j + 1)
    else c :: substStarsIdx cs caps j

/-- The amended description of destination substitution: every `:name`
placeholder — `:splat` included — consumes the next unused capture in
left-to-right order, then every `*` of the resulting text consumes the next
unused capture, and a literal `:splat` still remaining afterwards (possible
only when a capture contributes the text) is replaced with the last
capture. -/
def amendedApplyRedirectRule (path : String) (rule : RedirectRule) : String :=
  if ¬ strContainsChar rule.fromPat '*' ∧ ¬ strContainsChar rule.fromPat ':' then rule.toDest
  else
    match jsMatch rule.fromPat path with
    | none => rule.toDest
    | some captures =>
      let toks := scanToks rule.toDest.toList
      let d1 := renderParamsIdx toks captures 0
      let d2 := substStarsIdx d1 captures (countParams toks)
      let d3 := if containsSplat d2 then replaceSplat d2 (captures.getLastD "").toList else d2
      d3.asString

/-- Number of `:name` placeholders other than `:splat`. -/
def countParamsNoSplat : List DTok → Nat
  | [] => 0
  | DTok.param w :: ts =>
    if w = ['s', 'p', 'l', 'a', 't'] then countParamsNoSplat ts
    else countParamsNoSplat ts + 1
  | _ :: ts => countParamsNoSplat ts

/-- Ordered substitution as the claim states it: `:splat` placeholders do
not take part in the ordered consumption (they are left in place for the
final, independent `:splat` replacement). -/
def renderParamsNoSplat : List DTok → List String → Nat → List Char
  | [], _, _ => []
  | DTok.lit c :: ts, caps, i => c :: renderParamsNoSplat ts caps i
  | DTok.word w :: ts, caps, i => w ++ renderParamsNoSplat ts caps i
  | DTok.star :: ts, caps, i => '*' :: renderParamsNoSplat ts caps i
  | DTok.param w :: ts, caps, i =>
    if w = ['s', 'p', 'l', 'a', 't'] then
      ':' :: w ++ renderParamsNoSplat ts caps i
    else (caps.getD i "").toList ++ renderParamsNoSplat ts caps (i + 1)

/-- Destination substitution as claimed: each `:name` placeholder consumes
the next unused capture, then each `*` consumes the next unused capture,
and a `:splat` placeholder is replaced with the *last* capture,
independently of the ordered consumption and after it. -/
def claimApplyRedirectRule (path : String) (rule : RedirectRule) : String :=
  if ¬ strContainsChar rule.fromPat '*' ∧ ¬ strContainsChar rule.fromPat ':' then rule.toDest
  else
    match jsMatch rule.fromPat path with
    | none => rule.toDest
    | some captures =>
      let toks := scanToks rule.toDest.toList
      let d1 := renderParamsNoSplat toks captures 0
      let d2 := substStarsIdx d1 captures (countParamsNoSplat toks)
      let d3 := if containsSplat d2 then replaceSplat d2 (captures.getLastD "").toList else d2
      d3.asString

/-- Per-line reading of a redirects-file line, as stated by the amended
claim: skip blank and `#` lines; at least two whitespace-separated tokens
produce a rule; the status is the third token under `parseInt` semantics
when present (NaN when it has no integer prefix) and `301` only when it is
absent; a line is never dropped because of its status token. -/
def lineRuleSpec (line : String) : Option RedirectRule :=
  let trimmed := strTrim line
  if trimmed = "" ∨ strStartsWith trimmed "#" then none
  else
    let parts := jsSplitWs trimmed
    if parts.length ≥ 2 then
      some { fromPat := parts.getD 0 "", toDest := parts.getD 1 "",
             status := if parts.length > 2 then jsParseInt (parts.getD 2 "")
                       else JSNum.int 301 }
    else none

/-- All files of a directory tree in walk order, with the full path and the
entry name. -/
def allFilesWithNames (cur : String) : List FSEntry → List (String × String)
  | [] => []
  | FSEntry.dir name sub :: rest =>
    allFilesWithNames (joinPath cur name) sub ++ allFilesWithNames cur rest
  | FSEntry.file name :: rest =>
    (joinPath cur name, name) :: allFilesWithNames cur rest

/-! ## Helper lemmas -/

lemma tail_getD (l : List String) (i : Nat) : l.tail.getD i "" = l.getD (i + 1) "" := by
  cases l <;> rfl

lemma headD_getD (l : List String) : l.headD "" = l.getD 0 "" := by
  cases l <;> rfl

lemma drop_headD_getD (l : List String) (n : Nat) : (l.drop n).headD "" = l.getD n "" := by
  induction n generalizing l with
  | zero => cases l <;> rfl
  | succ n ih =>
    cases l with
    | nil => rfl
    | cons x xs => exact ih xs

lemma tail_dropN (l : List String) (n : Nat) : l.tail.drop n = l.drop (n + 1) := by
  cases l with
  | nil => simp
  | cons x xs => rfl

lemma dropN_tail (l : List String) (n : Nat) : (l.drop n).tail = l.drop (n + 1) := by
  induction n generalizing l with
  | zero => cases l <;> rfl
  | succ n ih =>
    cases l with
    | nil => rfl
    | cons x xs => exact ih xs

lemma drop_one_tail (l : List String) : l.drop 1 = l.tail := by
  cases l <;> rfl

lemma renderParamsIdx_tail (ts : List DTok) (caps : List String) (i : Nat) :
    renderParamsIdx ts caps.tail i = renderParamsIdx ts caps (i + 1) := by
  induction ts generalizing i with
  | nil => rfl
  | cons t ts ih =>
    cases t with
    | lit c => simp only [renderParamsIdx]; rw [ih]
    | word w => simp only [renderParamsIdx]; rw [ih]
    | star => simp only [renderParamsIdx]; rw [ih]
    | param w => simp only [renderParamsIdx]; rw [ih, tail_getD]

lemma renderParams_eq (ts : List DTok) (caps : List String) :
    renderParams ts caps = (renderParamsIdx ts caps 0, caps.drop (countParams ts)) := by
  induction ts generalizing caps with
  | nil => rfl
  | cons t ts ih =>
    cases t with
    | lit c => simp only [renderParams, renderParamsIdx, countParams, ih]
    | word w => simp only [renderParams, renderParamsIdx, countParams, ih]
    | star => simp only [renderParams, renderParamsIdx, countParams, ih]
    | param w =>
      simp only [renderParams, renderParamsIdx, countParams, ih, drop_one_tail]
      rw [renderParamsIdx_tail, headD_getD, tail_dropN]

lemma substStars_drop_eq (cs : List Char) (caps : List String) (n : Nat) :
    substStars cs (caps.drop n) = substStarsIdx cs caps n := by
  induction cs generalizing n with
  | nil => rfl
  | cons c cs ih =>
    by_cases hc : c = '*'
    · simp only [substStars, substStarsIdx, hc, if_true, if_pos]
      rw [drop_headD_getD, drop_one_tail, dropN_tail, ih]
    · simp only [substStars, substStarsIdx, hc, if_false, if_neg, ih]

/-! ## Claims -/

/-- Claim C5, amended: for every rule whose `from` contains `:` or `*` and
every path, `applyRedirectRule` substitutes captures into `to` in
left-to-right order, each `:name` placeholder — `:splat` included —
consuming the next unused capture and then each `*` consuming the next
unused capture; only a literal `:splat` still present after those passes is
replaced with the last capture.  (`:splat` is not independent of the
ordered consumption; see the counterexample.) -/
theorem c5_splat_substitution_amended (path : String) (rule : RedirectRule) :
    applyRedirectRule path rule = amendedApplyRedirectRule path rule := by
  by_cases hc : ¬ strContainsChar rule.fromPat '*' ∧ ¬ strContainsChar rule.fromPat ':'
  · simp [applyRedirectRule, amendedApplyRedirectRule, hc]
  · simp only [applyRedirectRule, amendedApplyRedirectRule, if_neg hc]
    cases h : jsMatch rule.fromPat path with
    | none => rfl
    | some caps =>
      simp only [renderParams_eq, substStars_drop_eq]

/-- Claim C5 counterexample: for the rule `/a/*/b/* → /x-:splat` and the
path `/a/1/b/2` (captures `1`, `2`), the code substitutes the *first*
capture for `:splat` (ordered consumption), producing `/x-1`; the claim's
independent-last-capture semantics would produce `/x-2`. -/
theorem c5_splat_substitution_counterexample :
    applyRedirectRule "/a/1/b/2"
      { fromPat := "/a/*/b/*", toDest := "/x-:splat", status := JSNum.int 301 } = "/x-1" ∧
    claimApplyRedirectRule "/a/1/b/2"
      { fromPat := "/a/*/b/*", toDest := "/x-:splat", status := JSNum.int 301 } = "/x-2" ∧
    ("/x-1" : String) ≠ "/x-2" := by
  refine ⟨by decide, by decide, by decide⟩

lemma parseRedirects_foldl (lines : List String) (acc : List RedirectRule) :
    lines.foldl
      (fun rules line =>
        let trimmed := strTrim line
        if trimmed = "" ∨ strStartsWith trimmed "#" then rules
        else
          let parts := jsSplitWs trimmed
          if parts.length ≥ 2 then
            rules ++ [{ fromPat := parts.getD 0 "", toDest := parts.getD 1 "",
                        status := if parts.length > 2 then jsParseInt (parts.getD 2 "")
                                  else JSNum.int 301 }]
          else rules)
      acc = acc ++ lines.filterMap lineRuleSpec := by
  induction lines generalizing acc with
  | nil => simp
  | cons l ls ih =>
    simp only [List.foldl_cons, List.filterMap_cons, ih]
    by_cases h1 : strTrim l = "" ∨ strStartsWith (strTrim l) "#"
    · simp [lineRuleSpec, h1]
    · by_cases h2 : (jsSplitWs (strTrim l)).length ≥ 2
      · simp [lineRuleSpec, h1, h2]
      · simp [lineRuleSpec, h1, h2]

/-- Claim C6, amended: every redirects-file line with at least two tokens
produces a rule and is never dropped because of its status token; the
status is the third token under `parseInt` semantics when present — which
is NaN, not 301, when the token has no integer prefix — and defaults to 301
only when the third token is absent (formalized by `lineRuleSpec`, which
`parseRedirects` realizes line by line). -/
theorem c6_status_parse_amended (content : String) :
    parseRedirects content = (strSplit content (· = '\n')).filterMap lineRuleSpec := by
  unfold parseRedirects
  rw [parseRedirects_foldl]
  simp

/-- Claim C6 counterexample: the line `a b xyz` has an ill-formed status
token; the code keeps the line but gives it status NaN (`parseInt("xyz")`),
not the claimed default 301. -/
theorem c6_status_parse_counterexample :
    parseRedirects "a b xyz" =
      [{ fromPat := "a", toDest := "b", status := JSNum.nan }] ∧
    JSNum.nan ≠ JSNum.int 301 := by
  refine ⟨by decide, by decide⟩

/-! ## Concrete fixtures for the claims about `checkInternalLink` and
`checkExternalLink` -/

/-- A filesystem with no entries at all. -/
def fsEmpty : FSModel :=
  { pathExists := fun _ => false, statIsDir := fun _ => false }

/-- A filesystem whose only file is `/etc/passwd` — outside the build root
`/build`. -/
def fsOutsideEtc : FSModel :=
  { pathExists := fun p => p = "/etc/passwd", statIsDir := fun _ => false }

/-- The traversal link of `test/security.test.js`: href
`../../../etc/passwd` inside the nested document `/build/sub/index.html`. -/
def traversalLink : Link :=
  { href := "../../../etc/passwd", text := "Path Traversal 1",
    sourceFile := "/build/sub/index.html", type := LinkType.internal }

/-- The cyclic redirect table `A→B→A` of claim C2. -/
def cyclicRules : List RedirectRule :=
  [{ fromPat := "/a", toDest := "/b", status := JSNum.int 301 },
   { fromPat := "/b", toDest := "/a", status := JSNum.int 301 }]

/-- A root-relative link entering the cycle at `/a`. -/
def cyclicLinkA : Link :=
  { href := "/a", text := "a", sourceFile := "/build/index.html", type := LinkType.internal }

/-- The same link after one redirect step. -/
def cyclicLinkB : Link := { cyclicLinkA with href := "/b" }

/-- An external link fixture for the probe claims. -/
def probeLink : Link :=
  { href := "https://example.com/page", text := "ex", sourceFile := "/build/index.html",
    type := LinkType.external }

/-- Claim C1 (code bug): `checkInternalLink` never reports `invalid` for a
relative href escaping the build root.  For `../../../etc/passwd` from
`/build/sub/index.html` the candidate resolves to `/etc/passwd`, outside
`/build`; when a file exists there the link is accepted as valid, and when
none exists the reported reason is `not-found` — in both cases contradicting
the claimed (and test-asserted) reason `invalid`. -/
theorem c1_traversal_never_invalid :
    checkInternalLink fsOutsideEtc "/build" [] 1 traversalLink = some none ∧
    checkInternalLink fsEmpty "/build" [] 1 traversalLink =
      some (some { toLink := traversalLink, error := "File not found: ../etc/passwd",
                   reason := Reason.notFound }) ∧
    Reason.notFound ≠ Reason.invalid := by
  refine ⟨by decide, by decide, by decide⟩

/-- One redirect-following step of `checkInternalLink` in the cyclic table:
`/a` rewrites to `/b` and vice versa, re-entering the recursion. -/
lemma checkInternalLink_cycle_steps (fs : FSModel) (buildDir : String) (n : Nat) :
    checkInternalLink fs buildDir cyclicRules (n + 1) cyclicLinkA =
      checkInternalLink fs buildDir cyclicRules n cyclicLinkB ∧
    checkInternalLink fs buildDir cyclicRules (n + 1) cyclicLinkB =
      checkInternalLink fs buildDir cyclicRules n cyclicLinkA := by
  constructor <;> rfl

/-- The cycle never reaches a result within any amount of fuel. -/
lemma checkInternalLink_cycle_none (fs : FSModel) (buildDir : String) (n : Nat) :
    checkInternalLink fs buildDir cyclicRules n cyclicLinkA = none ∧
    checkInternalLink fs buildDir cyclicRules n cyclicLinkB = none := by
  induction n with
  | zero => exact ⟨rfl, rfl⟩
  | succ n ih =>
    refine ⟨?_, ?_⟩
    · rw [(checkInternalLink_cycle_steps fs buildDir n).1]; exact ih.2
    · rw [(checkInternalLink_cycle_steps fs buildDir n).2]; exact ih.1

/-- Claim C2 (code bug): the redirect-following recursion of
`checkInternalLink` does not terminate on the cyclic rule table `A→B→A`
applied to `/a`: for every fuel bound the embedded recursion exhausts its
fuel (result `none`), for any filesystem and build root — the source has no
guard against infinite redirect loops, contradicting the claimed
termination. -/
theorem c2_redirect_cycle_diverges (fs : FSModel) (buildDir : String) (fuel : Nat) :
    checkInternalLink fs buildDir cyclicRules fuel cyclicLinkA = none :=
  (checkInternalLink_cycle_none fs buildDir fuel).1

/-- Claim C7, amended: an external probe completing with a 2xx status
(`response.ok`, 200-299) is valid; a completed response with any other
status — 3xx included — yields reason `network-error` with the status code
embedded in the message; an aborted probe (the timeout timer firing) yields
reason `timeout`. -/
theorem c7_external_probe_amended (link : Link) (timeout status : Nat) (statusText : String) :
    (responseOk status = true →
      checkExternalLink link timeout (FetchOutcome.response status statusText) = none) ∧
    (responseOk status = false →
      checkExternalLink link timeout (FetchOutcome.response status statusText) =
        some { toLink := link, error := "HTTP " ++ toString status ++ ": " ++ statusText,
               reason := Reason.networkError }) ∧
    checkExternalLink link timeout FetchOutcome.abortError =
      some { toLink := link, error := "Request timeout after " ++ toString timeout ++ "ms",
             reason := Reason.timeout } := by
  refine ⟨fun h => by simp [checkExternalLink, h], fun h => by simp [checkExternalLink, h], rfl⟩

/-- Claim C7 witness: a 404 response is reported as `network-error` with
the status code in the message, and an aborted probe as `timeout`. -/
theorem c7_external_probe_witness :
    checkExternalLink probeLink 5000 (FetchOutcome.response 404 "Not Found") =
      some { toLink := probeLink, error := "HTTP 404: Not Found",
             reason := Reason.networkError } ∧
    checkExternalLink probeLink 5000 FetchOutcome.abortError =
      some { toLink := probeLink, error := "Request timeout after 5000ms",
             reason := Reason.timeout } :=
  ⟨(c7_external_probe_amended probeLink 5000 404 "Not Found").2.1 (by decide),
   (c7_external_probe_amended probeLink 5000 0 "").2.2⟩

/-- Claim C7 counterexample: a response with status 301 lies in the claimed
2xx-3xx acceptable range, but the code (`response.ok`) treats only 200-299
as valid and reports a `network-error` for it. -/
theorem c7_external_probe_counterexample :
    (200 ≤ 301 ∧ 301 ≤ 399) ∧
    checkExternalLink probeLink 5000 (FetchOutcome.response 301 "Moved Permanently") =
      some { toLink := probeLink, error := "HTTP 301: Moved Permanently",
             reason := Reason.networkError } := by
  refine ⟨⟨by decide, by decide⟩, by decide⟩

/-- Every link of the href pass carries `categorizeLink` of its href and
passed the `javascript:`/`mailto:`/`tel:` filter. -/
lemma hrefPass_shape (doc : List Element) (sourceFile : String) (l : Link)
    (h : l ∈ hrefPassLinks doc sourceFile) :
    l.type = categorizeLink l.href ∧
    strStartsWith l.href "javascript:" = false ∧
    strStartsWith l.href "mailto:" = false ∧
    strStartsWith l.href "tel:" = false := by
  simp only [hrefPassLinks, List.mem_filterMap] at h
  obtain ⟨e, -, he⟩ := h
  split at he
  · split at he
    · split at he
      · rename_i href _ hcond
        injection he with h2
        subst h2
        refine ⟨rfl, ?_, ?_, ?_⟩ <;> simp_all
      · exact absurd he (by simp)
    · exact absurd he (by simp)
  · exact absurd he (by simp)

/-- Every link of the src pass is typed `asset` and passed the
`data:`/`blob:` filter. -/
lemma srcPass_shape (doc : List Element) (sourceFile : String) (l : Link)
    (h : l ∈ srcPassLinks doc sourceFile) :
    l.type = LinkType.asset ∧
    strStartsWith l.href "data:" = false ∧
    strStartsWith l.href "blob:" = false := by
  simp only [srcPassLinks, List.mem_filterMap] at h
  obtain ⟨e, -, he⟩ := h
  split at he
  · split at he
    · split at he
      · rename_i src _ hcond
        injection he with h2
        subst h2
        refine ⟨rfl, ?_, ?_⟩ <;> simp_all
      · exact absurd he (by simp)
    · exact absurd he (by simp)
  · exact absurd he (by simp)

/-- Every link of the srcset pass is typed `asset` and passed the
`data:`/`blob:` filter. -/
lemma srcsetPass_shape (doc : List Element) (sourceFile : String) (l : Link)
    (h : l ∈ srcsetPassLinks doc sourceFile) :
    l.type = LinkType.asset ∧
    strStartsWith l.href "data:" = false ∧
    strStartsWith l.href "blob:" = false := by
  simp only [srcsetPassLinks, List.mem_flatMap] at h
  obtain ⟨e, -, he⟩ := h
  split at he
  · split at he
    · simp only [List.mem_filterMap] at he
      obtain ⟨src, -, hsrc⟩ := he
      split at hsrc
      · rename_i hcond
        injection hsrc with h2
        subst h2
        refine ⟨rfl, ?_, ?_⟩ <;> simp_all
      · exact absurd hsrc (by simp)
    · exact absurd he (by simp)
  · exact absurd he (by simp)

/-- Claim C3, amended: classification is pure per attribute kind, not per
string.  A link extracted from an `href` attribute is typed
`categorizeLink` of its href — a pure function of the string, so equal href
strings from `href` attributes of any two documents receive equal types —
while every link extracted from `src`/`srcset` is typed `asset` regardless
of the string, so the same string may be typed differently depending on the
attribute it appears in. -/
theorem c3_classification_amended :
    (∀ (doc : List Element) (sourceFile : String) (l : Link),
        l ∈ hrefPassLinks doc sourceFile → l.type = categorizeLink l.href) ∧
    (∀ (d1 d2 : List Element) (f1 f2 : String) (l1 l2 : Link),
        l1 ∈ hrefPassLinks d1 f1 → l2 ∈ hrefPassLinks d2 f2 → l1.href = l2.href →
          l1.type = l2.type) ∧
    (∀ (doc : List Element) (sourceFile : String) (l : Link),
        l ∈ srcPassLinks doc sourceFile ∨ l ∈ srcsetPassLinks doc sourceFile →
          l.type = LinkType.asset) := by
  refine ⟨fun doc f l h => (hrefPass_shape doc f l h).1, ?_, ?_⟩
  · intro d1 d2 f1 f2 l1 l2 h1 h2 hh
    rw [(hrefPass_shape d1 f1 l1 h1).1, (hrefPass_shape d2 f2 l2 h2).1, hh]
  · intro doc f l h
    cases h with
    | inl h => exact (srcPass_shape doc f l h).1
    | inr h => exact (srcsetPass_shape doc f l h).1

/-- The anchor element `<a href="/about">About</a>`. -/
def elemAnchorAbout : Element :=
  { tag := "a", attrs := [("href", "/about")], innerText := "About" }

/-- The image element `<img src="/about">`. -/
def elemImgAbout : Element :=
  { tag := "img", attrs := [("src", "/about")], innerText := "" }

/-- Claim C3 counterexample: the string `/about` extracted from an `a href`
is typed `internal`, the same string extracted from an `img src` is typed
`asset` — the assigned type is not a function of the string alone. -/
theorem c3_classification_counterexample :
    ({ href := "/about", text := "About", sourceFile := "s",
       type := LinkType.internal } : Link) ∈ extractLinksFromHtml [elemAnchorAbout] "s" ∧
    ({ href := "/about", text := "/about", sourceFile := "s",
       type := LinkType.asset } : Link) ∈ extractLinksFromHtml [elemImgAbout] "s" ∧
    LinkType.internal ≠ LinkType.asset := by
  refine ⟨by decide, by decide, by decide⟩

/-- Claim C3 witness: the amended theorem applied to the concrete document
`[<a href="/about">About</a>]`. -/
theorem c3_classification_witness :
    ({ href := "/about", text := "About", sourceFile := "s",
       type := LinkType.internal } : Link).type = categorizeLink "/about" :=
  c3_classification_amended.1 [elemAnchorAbout] "s" _ (by decide)

/-- Claim C4, amended: the href pass excludes exactly the `javascript:`,
`mailto:` and `tel:` schemes, and the src/srcset passes exactly `data:` and
`blob:`; the five schemes are not all excluded from both attribute kinds
(a `data:` href survives extraction — see the counterexample). -/
theorem c4_scheme_exclusion_amended :
    (∀ (doc : List Element) (sourceFile : String) (l : Link),
        l ∈ hrefPassLinks doc sourceFile →
          strStartsWith l.href "javascript:" = false ∧
          strStartsWith l.href "mailto:" = false ∧
          strStartsWith l.href "tel:" = false) ∧
    (∀ (doc : List Element) (sourceFile : String) (l : Link),
        l ∈ srcPassLinks doc sourceFile ∨ l ∈ srcsetPassLinks doc sourceFile →
          strStartsWith l.href "data:" = false ∧
          strStartsWith l.href "blob:" = false) := by
  refine ⟨fun doc f l h => (hrefPass_shape doc f l h).2, fun doc f l h => ?_⟩
  cases h with
  | inl h => exact ⟨(srcPass_shape doc f l h).2.1, (srcPass_shape doc f l h).2.2⟩
  | inr h => exact ⟨(srcsetPass_shape doc f l h).2.1, (srcsetPass_shape doc f l h).2.2⟩

/-- The anchor element `<a href="data:text/html,x">d</a>`. -/
def elemDataHref : Element :=
  { tag := "a", attrs := [("href", "data:text/html,x")], innerText := "d" }

/-- Claim C4 counterexample: a `data:` href on an anchor element is not
excluded — the extracted link set of `[<a href="data:text/html,x">]`
contains a link whose href has the `data:` scheme. -/
theorem c4_scheme_exclusion_counterexample :
    extractLinksFromHtml [elemDataHref] "s" =
      [{ href := "data:text/html,x", text := "d", sourceFile := "s",
         type := LinkType.internal }] ∧
    strStartsWith "data:text/html,x" "data:" = true := by
  refine ⟨by decide, by decide⟩

/-- Claim C4 witness: the amended theorem applied to the concrete document
`[<a href="/about">About</a>]`. -/
theorem c4_scheme_exclusion_witness :
    strStartsWith "/about" "javascript:" = false ∧
    strStartsWith "/about" "mailto:" = false ∧
    strStartsWith "/about" "tel:" = false :=
  c4_scheme_exclusion_amended.1 [elemAnchorAbout] "s"
    { href := "/about", text := "About", sourceFile := "s", type := LinkType.internal }
    (by decide)

/-- Claim C8: for every path and rule list, when the rule at position `i`
matches the path and no earlier rule does, `findRedirectRule` returns that
rule — matching is order-sensitive, first match wins. -/
theorem c8_first_match_wins (path : String) (rules : List RedirectRule) (i : Nat)
    (hi : i < rules.length)
    (hm : matchesPattern path (rules.get ⟨i, hi⟩).fromPat = true)
    (hprev : ∀ j (hj : j < i),
      matchesPattern path (rules.get ⟨j, Nat.lt_trans hj hi⟩).fromPat = false) :
    findRedirectRule path rules = some (rules.get ⟨i, hi⟩) := by
  induction rules generalizing i with
  | nil => exact absurd hi (by simp)
  | cons r rest ih =>
    cases i with
    | zero =>
      simp only [List.get] at hm ⊢
      simp [findRedirectRule, hm]
    | succ i =>
      have h0 : matchesPattern path r.fromPat = false := hprev 0 (Nat.succ_pos i)
      simp only [findRedirectRule, h0, List.get]
      rw [if_neg (by simp [h0])]
      exact ih i (Nat.lt_of_succ_lt_succ hi) hm
        (fun j hj => hprev (j + 1) (Nat.succ_lt_succ hj))

/-- A rule table in which both the second and the third pattern match the
path `/a/q`, while the first does not. -/
def overlappingRules : List RedirectRule :=
  [{ fromPat := "/x", toDest := "/y", status := JSNum.int 301 },
   { fromPat := "/a/*", toDest := "/b", status := JSNum.int 301 },
   { fromPat := "/a/:p", toDest := "/c", status := JSNum.int 301 }]

/-- Claim C8 witness: with two overlapping matching rules, the earlier one
(`/a/*`) is selected. -/
theorem c8_first_match_wins_witness :
    matchesPattern "/a/q" "/a/*" = true ∧
    matchesPattern "/a/q" "/a/:p" = true ∧
    findRedirectRule "/a/q" overlappingRules =
      some { fromPat := "/a/*", toDest := "/b", status := JSNum.int 301 } :=
  ⟨by decide, by decide,
   c8_first_match_wins "/a/q" overlappingRules 1 (by decide) (by decide)
     (fun j hj => by
       have hj0 : j = 0 := by omega
       subst hj0
       show matchesPattern "/a/q" "/x" = false
       decide)⟩

lemma checkLinks_foldl (bd : String)
    (files : List (String × Except String (List Link × List BrokenLink)))
    (acc : LinkCheckResult) :
    files.foldl
      (fun result fr =>
        match fr.2 with
        | Except.ok lb =>
          { result with
            totalLinks := result.totalLinks + lb.1.length,
            brokenLinks := result.brokenLinks ++ lb.2,
            checkedFiles := result.checkedFiles ++ [relativePath bd fr.1] }
        | Except.error _ =>
          { result with
            skippedFiles := result.skippedFiles ++ [relativePath bd fr.1] })
      acc =
    { totalLinks := acc.totalLinks + (files.map fun p =>
        match p.2 with
        | Except.ok lb => lb.1.length
        | Except.error _ => 0).sum,
      brokenLinks := acc.brokenLinks ++ (files.flatMap fun p =>
        match p.2 with
        | Except.ok lb => lb.2
        | Except.error _ => []),
      checkedFiles := acc.checkedFiles ++ (files.filterMap fun p =>
        match p.2 with
        | Except.ok _ => some (relativePath bd p.1)
        | Except.error _ => none),
      skippedFiles := acc.skippedFiles ++ (files.filterMap fun p =>
        match p.2 with
        | Except.error _ => some (relativePath bd p.1)
        | Except.ok _ => none) } := by
  induction files generalizing acc with
  | nil => simp
  | cons f fs ih =>
    obtain ⟨p1, p2⟩ := f
    cases p2 with
    | ok lb =>
      simp only [List.foldl_cons, ih, List.map_cons, List.sum_cons, List.flatMap_cons,
        List.filterMap_cons]
      simp [Nat.add_assoc, List.append_assoc]
    | error e =>
      simp only [List.foldl_cons, ih, List.map_cons, List.sum_cons, List.flatMap_cons,
        List.filterMap_cons]
      simp [List.append_assoc]

/-- Claim C9: a file whose read fails is recorded (as its path relative to
the build root) in `skippedFiles`, never in `checkedFiles` (for distinct
relative paths), its links do not contribute to `totalLinks` (the total is
the sum over the successful files only), and every successfully processed
file still appears in `checkedFiles` — one failing file never aborts the
run. -/
theorem c9_failing_file_isolated (bd : String)
    (files : List (String × Except String (List Link × List BrokenLink)))
    (f e : String) (hmem : (f, Except.error e) ∈ files) :
    relativePath bd f ∈ (checkLinks bd files).skippedFiles ∧
    ((files.map fun p => relativePath bd p.1).Nodup →
      relativePath bd f ∉ (checkLinks bd files).checkedFiles) ∧
    (checkLinks bd files).totalLinks =
      (files.map fun p =>
        match p.2 with
        | Except.ok lb => lb.1.length
        | Except.error _ => 0).sum ∧
    (checkLinks bd files).checkedFiles =
      (files.filterMap fun p =>
        match p.2 with
        | Except.ok _ => some (relativePath bd p.1)
        | Except.error _ => none) := by
  have hc := checkLinks_foldl bd files
    { totalLinks := 0, brokenLinks := [], checkedFiles := [], skippedFiles := [] }
  refine ⟨?_, ?_, ?_, ?_⟩
  · rw [checkLinks, hc]
    simp only [List.nil_append]
    exact List.mem_filterMap.mpr ⟨(f, Except.error e), hmem, rfl⟩
  · intro hnd hin
    rw [checkLinks, hc] at hin
    simp only [List.nil_append] at hin
    obtain ⟨⟨p1, p2⟩, hp, hpe⟩ := List.mem_filterMap.mp hin
    cases p2 with
    | error e2 => exact absurd hpe (by simp)
    | ok lb =>
      have heq : relativePath bd p1 = relativePath bd f := by
        simpa using hpe
      have := List.inj_on_of_nodup_map hnd hp hmem heq
      simp at this
  · rw [checkLinks, hc]
    simp
  · rw [checkLinks, hc]
    simp

/-- A two-file run in which the second file's read throws. -/
def mixedFileResults : List (String × Except String (List Link × List BrokenLink)) :=
  [("/b/good.html", Except.ok ([probeLink], [])),
   ("/b/bad.html", Except.error "EACCES: permission denied")]

/-- Claim C9 witness: the failing file of the concrete two-file run is
skipped and not checked, and the total counts only the good file's link. -/
theorem c9_failing_file_isolated_witness :
    relativePath "/b" "/b/bad.html" ∈ (checkLinks "/b" mixedFileResults).skippedFiles ∧
    relativePath "/b" "/b/bad.html" ∉ (checkLinks "/b" mixedFileResults).checkedFiles ∧
    (checkLinks "/b" mixedFileResults).totalLinks = 1 :=
  ⟨(c9_failing_file_isolated "/b" mixedFileResults "/b/bad.html"
      "EACCES: permission denied" (by simp [mixedFileResults])).1,
   (c9_failing_file_isolated "/b" mixedFileResults "/b/bad.html"
      "EACCES: permission denied" (by simp [mixedFileResults])).2.1 (by decide),
   by decide⟩

lemma walkEntries_eq (cur : String) (es : List FSEntry) :
    walkEntries cur es =
      ((allFilesWithNames cur es).filter fun pn => strEndsWith pn.2 ".html").map Prod.fst := by
  induction cur, es using walkEntries.induct with
  | case1 cur => simp [walkEntries, allFilesWithNames]
  | case2 cur name sub rest ih1 ih2 =>
    simp [walkEntries, allFilesWithNames, ih1, ih2]
  | case3 cur name rest ih =>
    by_cases h : strEndsWith name ".html" <;>
      simp [walkEntries, allFilesWithNames, h, ih]

/-- Claim C10: the walker collects, in walk order, exactly the files of the
tree whose entry names end in `.html`; and `getHtmlFiles` produces the
identical file list for any two values of the include-pattern option — the
option has no effect on file selection. -/
theorem c10_walker_selects_html (dir : String) (tree : List FSEntry)
    (incA incB : List String) :
    getHtmlFiles dir tree incA =
      ((allFilesWithNames dir tree).filter fun pn => strEndsWith pn.2 ".html").map Prod.fst ∧
    getHtmlFiles dir tree incA = getHtmlFiles dir tree incB :=
  ⟨walkEntries_eq dir tree, rfl⟩
